import Mathlib

/-
Shallow embedding of brainstorm/data_iterators.py (the data-feeding pipeline
of the brainstorm repository): base iterators (Undivided, Online, Minibatches),
decorator iterators (AddGaussianNoise, Flip, Pad, RandomCrop), the shared shape
validator _assert_correct_data_format, and the per-iterator random state.

Modelling conventions:
  - numpy ndarrays are NDArray: a shape (list of extents) together with a total
    value function from index lists to rationals.  Array values are never
    mutated by the source code (every transformation builds a new array or a
    view and rebinds a dict key), so immutable values are faithful.
  - Python dicts of named data are association lists (List (String, NDArray)).
    Insertion order is the iteration order, as in Python dicts.
  - Python exceptions are the PyError kind.  Message payloads are elided; the
    constructor identifies the exception class, which is what the claims are
    about.
  - numpy RandomState is abstracted as a stream of raw rational draws plus a
    cursor.  random_sample maps a raw draw into the interval [0, 1);
    random_integers maps a raw draw into the inclusive range via modulus, which
    is exactly the guarantee the source relies on; shuffle is the Fisher-Yates
    walk numpy performs, consuming one draw per step.
  - Undivided.__call__ yields self.data itself (the very dict object), while
    every decorator assigns transformed arrays back into the dict it received.
    This aliasing is modelled explicitly: a run returns the updated iterator
    state, and a decorator chain rooted at Undivided writes the transformed
    batch back into the root dataset, exactly as the Python dict mutation does.
-/

namespace Brainstorm

/-- Kinds of Python exception observed by the embedded code.  The source
raises IteratorValidationError for contract violations, but an assert
statement raises AssertionError, min() on an empty sequence raises ValueError,
and reading a missing attribute raises AttributeError. -/
inductive PyError where
  | iteratorValidationError
  | assertionError
  | valueError
  | attributeError
deriving DecidableEq, Repr

/-- True only for the structured iterator validation error kind. -/
def PyError.isValidationError : PyError → Bool
  | .iteratorValidationError => true
  | _ => false

/-- A numpy ndarray: a shape together with a total valuation of index lists.
Entries outside the shape are irrelevant junk. -/
structure NDArray where
  shape : List Nat
  val : List Nat → ℚ

/-- A named batch: mapping from data name to array, in Python dict order. -/
abbrev Batch := List (String × NDArray)

/-- First value bound to a key in an association list (Python dict lookup). -/
def lookupKey {α : Type} (l : List (String × α)) (k : String) : Option α :=
  (l.find? (fun p => p.1 == k)).map Prod.snd

/-- Keys of an association list, in order. -/
def keysOf {α : Type} (l : List (String × α)) : List String :=
  l.map Prod.fst

/-- Python membership test key in d.keys(). -/
def hasKey {α : Type} (l : List (String × α)) (k : String) : Bool :=
  (keysOf l).contains k

/-- Python set equality of the key sets of two dicts. -/
def sameKeySet {α β : Type} (a : List (String × α)) (b : List (String × β)) : Bool :=
  (keysOf a).all (fun k => (keysOf b).contains k) &&
  (keysOf b).all (fun k => (keysOf a).contains k)

/-- Python dict assignment d[k] = f (d[k]): rebind the value at a key,
leaving other entries untouched. -/
def mapEntry (b : Batch) (k : String) (f : NDArray → NDArray) : Batch :=
  b.map (fun p => if p.1 = k then (p.1, f p.2) else p)

/-- Owned pseudo-random state of a Seedable iterator: an abstract stream of
raw rational draws and a cursor.  Equal streams and cursors reproduce equal
draw sequences, which is the determinism property of a seeded RandomState. -/
structure RNG where
  stream : ℕ → ℚ
  pos : ℕ

/-- Take one raw draw, advancing the cursor. -/
def RNG.next (r : RNG) : ℚ × RNG :=
  (r.stream r.pos, ⟨r.stream, r.pos + 1⟩)

/-- Reduce a raw rational draw into [0, 1), as random_sample guarantees. -/
def fract01 (q : ℚ) : ℚ :=
  ((q.num.toNat % q.den : ℕ) : ℚ) / (q.den : ℚ)

/-- rnd.random_sample(): one uniform draw in [0, 1). -/
def RNG.randomSample (r : RNG) : ℚ × RNG :=
  let (q, r1) := r.next
  (fract01 q, r1)

/-- Reduce a raw rational draw to a natural number below the given bound,
as an inclusive-range integer draw guarantees.  The bound is always positive
where the source calls it. -/
def natDrawBelow (q : ℚ) (n : ℕ) : ℕ :=
  q.num.toNat % n

/-- rnd.random_integers(0, maxv): one uniform integer draw in [0, maxv]. -/
def RNG.randIntLe (r : RNG) (maxv : ℕ) : ℕ × RNG :=
  let (q, r1) := r.next
  (natDrawBelow q (maxv + 1), r1)

/-- rnd.random_integers(0, maxv, n): n uniform integer draws in [0, maxv]. -/
def randIntList (r : RNG) (maxv : ℕ) : ℕ → List ℕ × RNG
  | 0 => ([], r)
  | n + 1 =>
    let (x, r1) := r.randIntLe maxv
    let (xs, r2) := randIntList r1 maxv n
    (x :: xs, r2)

/-- Row-major flattening of an index list with respect to a shape, used to
address consecutive stream draws for a whole Gaussian noise tensor. -/
def flattenIx : List Nat → List Nat → Nat
  | [], _ => 0
  | _ :: ds, [] => flattenIx ds []
  | _ :: ds, i :: is => i * (ds.foldl (fun a x => a * x) 1) + flattenIx ds is

/-- rnd.standard_normal(shape): a fresh tensor of raw draws of the given
shape, advancing the cursor by the element count.  The Gaussian distribution
itself is irrelevant to the claims; the draws are the raw stream values. -/
def RNG.standardNormal (r : RNG) (shape : List Nat) : NDArray × RNG :=
  (⟨shape, fun ix => r.stream (r.pos + flattenIx shape ix)⟩,
   ⟨r.stream, r.pos + shape.foldl (fun a x => a * x) 1⟩)

/-- Exchange the entries at two positions of a list (numpy in-place swap). -/
def swapAt2 (l : List ℕ) (i j : ℕ) : List ℕ :=
  match l.get? i, l.get? j with
  | some x, some y => (l.set i y).set j x
  | _, _ => l

/-- Fisher-Yates walk from position i down to 1: at each position draw an
index in [0, i] and swap.  This is the loop rnd.shuffle performs. -/
def shuffleAux (r : RNG) (l : List ℕ) : ℕ → List ℕ × RNG
  | 0 => (l, r)
  | i + 1 =>
    let (j, r1) := r.randIntLe (i + 1)
    shuffleAux r1 (swapAt2 l (i + 1) j) i

/-- rnd.shuffle on a list of indices. -/
def RNG.shuffle (r : RNG) (l : List ℕ) : List ℕ × RNG :=
  shuffleAux r l (l.length - 1)

/-- The numpy slice v[:, lo:hi]: all of axis 0, the clamped range [lo, hi) of
axis 1, every further axis kept whole.  Out-of-range bounds truncate instead
of erroring, exactly as Python slicing does. -/
def sliceCols (a : NDArray) (lo hi : ℕ) : NDArray :=
  let b := a.shape.getD 1 0
  let lo1 := min lo b
  let hi1 := min hi b
  ⟨a.shape.set 1 (hi1 - lo1), fun ix => a.val (ix.set 1 (lo1 + ix.getD 1 0))⟩

/-- The numpy view v[..., ::-1]: reverse the last axis (Flip line 135). -/
def reverseLast (a : NDArray) : NDArray :=
  let rk := a.shape.length
  ⟨a.shape, fun ix =>
    a.val (ix.set (rk - 1) (a.shape.getD (rk - 1) 0 - 1 - ix.getD (rk - 1) 0))⟩

/-- Pad.__call__ body for one configured name (lines 184-189): allocate
val * ones((t, b, c, h + 2 s, w + 2 s)) and assign the original array into
new_data[:, :, :, size : -size, size : -size].  For size = 0 the Python slice
size : -size is the slice 0 : 0, an empty region, so the assignment attempts
to broadcast an (h, w) image into a (0, 0) region: numpy raises ValueError
when h or w exceeds 1, and silently writes nothing when h and w are both at
most 1, leaving the fresh array filled with the pad value. -/
def padArray (a : NDArray) (s : ℕ) (v : ℚ) : Except PyError NDArray :=
  let t := a.shape.getD 0 0
  let b := a.shape.getD 1 0
  let c := a.shape.getD 2 0
  let h := a.shape.getD 3 0
  let w := a.shape.getD 4 0
  if s = 0 ∧ (2 ≤ h ∨ 2 ≤ w) then .error .valueError
  else .ok ⟨[t, b, c, h + 2 * s, w + 2 * s], fun ix =>
    if 1 ≤ s ∧ s ≤ ix.getD 3 0 ∧ ix.getD 3 0 < h + s ∧
       s ≤ ix.getD 4 0 ∧ ix.getD 4 0 < w + s
    then a.val [ix.getD 0 0, ix.getD 1 0, ix.getD 2 0, ix.getD 3 0 - s, ix.getD 4 0 - s]
    else v⟩

/-- Modelled from the spec: the crop kernel _crop_images from
brainstorm.handlers._cpuop is imported by data_iterators.py but its source is
not part of this repository snapshot.  Per spec section 4.8 it extracts, for
every sample and every time step and channel, the sub-window of size (ch, cw)
starting at that samples drawn row and column offsets, into an output of
shape (T, B, C, ch, cw); the offset pair depends only on the sample index. -/
def cropArray (a : NDArray) (ch cw : ℕ) (rows cols : List ℕ) : NDArray :=
  ⟨a.shape.take 3 ++ [ch, cw], fun ix =>
    a.val [ix.getD 0 0, ix.getD 1 0, ix.getD 2 0,
           rows.getD (ix.getD 1 0) 0 + ix.getD 3 0,
           cols.getD (ix.getD 1 0) 0 + ix.getD 4 0]⟩

/-- RandomCrop.__call__ body for one configured name (lines 237-246): read
the batch extent and the spatial extents from the incoming array, draw one
row offset and one column offset per sample with random_integers, and build
the cropped array. -/
def cropOne (r : RNG) (ch cw : ℕ) (a : NDArray) : NDArray × RNG :=
  let bsz := a.shape.getD 1 0
  let maxR := a.shape.getD 3 0 - ch
  let maxC := a.shape.getD 4 0 - cw
  let (rows, r1) := randIntList r maxR bsz
  let (cols, r2) := randIntList r1 maxC bsz
  (cropArray a ch cw rows cols, r2)

/-- AddGaussianNoise.__call__ per-batch loop (lines 84-88): for each entry of
std_dict in order, data[key] = data[key] + std * standard_normal(shape) + mean.
A configured key is always present in a yielded batch (construction validated
it against the data names); the missing-key branch is the unreachable Python
KeyError path and is modelled as a no-op. -/
def noiseBatchAux (meanD : List (String × ℚ)) (r : RNG) (b : Batch) :
    List (String × ℚ) → Batch × RNG
  | [] => (b, r)
  | (k, std) :: rest =>
    match lookupKey b k with
    | none => noiseBatchAux meanD r b rest
    | some a =>
      let mean := (lookupKey meanD k).getD 0
      let (nz, r1) := r.standardNormal a.shape
      noiseBatchAux meanD r1
        (mapEntry b k (fun arr => ⟨arr.shape, fun ix => arr.val ix + std * nz.val ix + mean⟩))
        rest

/-- One pass of AddGaussianNoise over one yielded batch. -/
def noiseBatch (r : RNG) (stdD meanD : List (String × ℚ)) (b : Batch) : Batch × RNG :=
  noiseBatchAux meanD r b stdD

/-- Flip.__call__ per-batch loop (lines 133-135): for each configured name
draw one uniform sample, and when it is below the probability rebind the
entry to the reversed view. -/
def flipBatchAux (r : RNG) (b : Batch) : List (String × ℚ) → Batch × RNG
  | [] => (b, r)
  | (k, p) :: rest =>
    let (u, r1) := r.randomSample
    flipBatchAux r1 (if u < p then mapEntry b k reverseLast else b) rest

/-- One pass of Flip over one yielded batch. -/
def flipBatch (r : RNG) (probD : List (String × ℚ)) (b : Batch) : Batch × RNG :=
  flipBatchAux r b probD

/-- Pad.__call__ per-batch loop (lines 183-189): replace each configured
entry by its padded array, propagating the numpy broadcast error. -/
def padBatchAux (valD : List (String × ℚ)) (b : Batch) :
    List (String × ℕ) → Except PyError Batch
  | [] => .ok b
  | (k, s) :: rest =>
    match lookupKey b k with
    | none => padBatchAux valD b rest
    | some a =>
      match padArray a s ((lookupKey valD k).getD 0) with
      | .error e => .error e
      | .ok p => padBatchAux valD (mapEntry b k (fun _ => p)) rest

/-- One pass of Pad over one yielded batch. -/
def padBatch (sizeD : List (String × ℕ)) (valD : List (String × ℚ)) (b : Batch) :
    Except PyError Batch :=
  padBatchAux valD b sizeD

/-- RandomCrop.__call__ per-batch loop (lines 236-246). -/
def cropBatchAux (r : RNG) (b : Batch) : List (String × (ℕ × ℕ)) → Batch × RNG
  | [] => (b, r)
  | (k, cs) :: rest =>
    match lookupKey b k with
    | none => cropBatchAux r b rest
    | some a =>
      let (out, r1) := cropOne r cs.1 cs.2 a
      cropBatchAux r1 (mapEntry b k (fun _ => out)) rest

/-- One pass of RandomCrop over one yielded batch. -/
def cropBatch (r : RNG) (shapeD : List (String × (ℕ × ℕ))) (b : Batch) : Batch × RNG :=
  cropBatchAux r b shapeD

/-- Thread the AddGaussianNoise transformation over the stream of batches the
inner iterator yields, advancing the decorator RNG batch by batch. -/
def noiseAll (r : RNG) (stdD meanD : List (String × ℚ)) : List Batch → List Batch × RNG
  | [] => ([], r)
  | b :: bs =>
    let (tb, r1) := noiseBatch r stdD meanD b
    let (ts, r2) := noiseAll r1 stdD meanD bs
    (tb :: ts, r2)

/-- Thread the Flip transformation over the stream of yielded batches. -/
def flipAll (r : RNG) (probD : List (String × ℚ)) : List Batch → List Batch × RNG
  | [] => ([], r)
  | b :: bs =>
    let (tb, r1) := flipBatch r probD b
    let (ts, r2) := flipAll r1 probD bs
    (tb :: ts, r2)

/-- Thread the RandomCrop transformation over the stream of yielded batches. -/
def cropAll (r : RNG) (shapeD : List (String × (ℕ × ℕ))) : List Batch → List Batch × RNG
  | [] => ([], r)
  | b :: bs =>
    let (tb, r1) := cropBatch r shapeD b
    let (ts, r2) := cropAll r1 shapeD bs
    (tb :: ts, r2)

/-- Thread the Pad transformation over the stream of yielded batches.  In
Python the broadcast error surfaces when the offending batch is produced;
batches yielded before it are not needed by any claim, so an erroring run is
collapsed to the error. -/
def padAll (sizeD : List (String × ℕ)) (valD : List (String × ℚ)) :
    List Batch → Except PyError (List Batch)
  | [] => .ok []
  | b :: bs => do
    let tb ← padBatch sizeD valD b
    let ts ← padAll sizeD valD bs
    pure (tb :: ts)

/-- Python min over a list of dict values: ValueError on an empty sequence. -/
def pymin : List ℕ → Except PyError ℕ
  | [] => .error .valueError
  | x :: xs => .ok (xs.foldl min x)

/-- Python max over a list of dict values: ValueError on an empty sequence. -/
def pymax : List ℕ → Except PyError ℕ
  | [] => .error .valueError
  | x :: xs => .ok (xs.foldl max x)

/-- The shape validator _assert_correct_data_format (lines 346-370).  Every
model array has a shape, so the hasattr check always passes; the per-item
loop raises the validation error at the first entry of rank below 3; then the
sample extents and the time extents must each be constant, checked through
Python min and max, which raise ValueError on an empty mapping.  On success
the common sample extent is returned. -/
def _assert_correct_data_format (nd : List (String × NDArray)) : Except PyError ℕ :=
  match nd.find? (fun p => p.2.shape.length < 3) with
  | some _ => .error .iteratorValidationError
  | none =>
    match pymin (nd.map (fun p => p.2.shape.getD 1 0)),
          pymax (nd.map (fun p => p.2.shape.getD 1 0)) with
    | .error e, _ => .error e
    | .ok _, .error e => .error e
    | .ok mns, .ok mxs =>
      if mns ≠ mxs then .error .iteratorValidationError
      else
        match pymin (nd.map (fun p => p.2.shape.getD 0 0)),
              pymax (nd.map (fun p => p.2.shape.getD 0 0)) with
        | .error e, _ => .error e
        | .ok _, .error e => .error e
        | .ok mnt, .ok mxt =>
          if mnt ≠ mxt then .error .iteratorValidationError
          else pymin (nd.map (fun p => p.2.shape.getD 1 0))

/-- The iterator pipeline: base iterators hold the validated dataset and the
attributes their __init__ stores (shuffle flag, owned RNG, nr_sequences);
decorator iterators hold their owned RNG, their per-name configuration and
the wrapped inner iterator.  Pad is Seedable in the source even though it
never draws, so it also owns an RNG. -/
inductive Iter where
  | undivided (data : List (String × NDArray))
  | online (shuffle : Bool) (rng : RNG) (nrSequences : ℕ) (data : List (String × NDArray))
  | minibatches (batchSize : ℕ) (shuffle : Bool) (rng : RNG) (nrSequences : ℕ)
      (data : List (String × NDArray))
  | addGaussianNoise (rng : RNG) (stdD meanD : List (String × ℚ)) (inner : Iter)
  | flip (rng : RNG) (probD : List (String × ℚ)) (inner : Iter)
  | pad (rng : RNG) (sizeD : List (String × ℕ)) (valD : List (String × ℚ)) (inner : Iter)
  | randomCrop (rng : RNG) (shapeD : List (String × (ℕ × ℕ))) (inner : Iter)

/-- The Python attribute read iter.data: base iterators store self.data in
their __init__, decorators never do, so the read raises AttributeError on a
decorator. -/
def Iter.getDataAttr : Iter → Except PyError (List (String × NDArray))
  | .undivided d => .ok d
  | .online _ _ _ d => .ok d
  | .minibatches _ _ _ _ d => .ok d
  | _ => .error .attributeError

/-- True on the four wrapping iterators. -/
def Iter.isDecorator : Iter → Bool
  | .undivided _ => false
  | .online _ _ _ _ => false
  | .minibatches _ _ _ _ _ => false
  | _ => true

/-- True when the batches this pipeline yields alias the root dataset dict:
Undivided yields self.data itself, Online and Minibatches build a fresh dict
per batch, and decorators pass the dict they received through. -/
def Iter.isAliased : Iter → Bool
  | .undivided _ => true
  | .online _ _ _ _ => false
  | .minibatches _ _ _ _ _ => false
  | .addGaussianNoise _ _ _ inner => inner.isAliased
  | .flip _ _ inner => inner.isAliased
  | .pad _ _ _ inner => inner.isAliased
  | .randomCrop _ _ inner => inner.isAliased

/-- The dataset stored by the base iterator at the root of the pipeline. -/
def Iter.rootData : Iter → List (String × NDArray)
  | .undivided d => d
  | .online _ _ _ d => d
  | .minibatches _ _ _ _ d => d
  | .addGaussianNoise _ _ _ inner => inner.rootData
  | .flip _ _ inner => inner.rootData
  | .pad _ _ _ inner => inner.rootData
  | .randomCrop _ _ inner => inner.rootData

/-- Replace the root dataset, used to model the dict mutation a decorator
performs on the aliased dict yielded by Undivided. -/
def Iter.setRootData : Iter → Batch → Iter
  | .undivided _, d => .undivided d
  | .online sh r n _, d => .online sh r n d
  | .minibatches k sh r n _, d => .minibatches k sh r n d
  | .addGaussianNoise r sD mD inner, d => .addGaussianNoise r sD mD (inner.setRootData d)
  | .flip r pD inner, d => .flip r pD (inner.setRootData d)
  | .pad r sD vD inner, d => .pad r sD vD (inner.setRootData d)
  | .randomCrop r sD inner, d => .randomCrop r sD (inner.setRootData d)

/-- Reset every owned RNG in the pipeline to the given seeded state, the
model of re-seeding each Seedable before a fresh invocation. -/
def Iter.resetRNG : Iter → RNG → Iter
  | .undivided d, _ => .undivided d
  | .online sh _ n d, r => .online sh r n d
  | .minibatches k sh _ n d, r => .minibatches k sh r n d
  | .addGaussianNoise _ sD mD inner, r => .addGaussianNoise r sD mD (inner.resetRNG r)
  | .flip _ pD inner, r => .flip r pD (inner.resetRNG r)
  | .pad _ sD vD inner, r => .pad r sD vD (inner.resetRNG r)
  | .randomCrop _ sD inner, r => .randomCrop r sD (inner.resetRNG r)

/-- AddGaussianNoise.__init__ validation loop (lines 69-76): each configured
key must be present in iter.data, the attribute read happening inside the
loop, so an empty std_dict never touches it.  Every model data value is an
ndarray, so the isinstance check always passes. -/
def agnCheckLoop (inner : Iter) : List (String × ℚ) → Except PyError Unit
  | [] => .ok ()
  | (k, _) :: rest => do
    let d ← inner.getDataAttr
    if hasKey d k then agnCheckLoop inner rest
    else throw .iteratorValidationError

/-- AddGaussianNoise.__init__ (lines 51-80): when a mean dict is supplied an
assert statement compares its key set with the std key set, raising
AssertionError on mismatch, before the per-key validation loop runs. -/
def mkAddGaussianNoise (inner : Iter) (stdD : List (String × ℚ))
    (meanD : Option (List (String × ℚ))) (rng : RNG) : Except PyError Iter := do
  match meanD with
  | some m => if sameKeySet m stdD then pure () else throw .assertionError
  | none => pure ()
  agnCheckLoop inner stdD
  pure (.addGaussianNoise rng stdD (meanD.getD []) inner)

/-- Default probability configuration of Flip. -/
def defaultProbDict : List (String × ℚ) := [("default", (1 : ℚ) / 2)]

/-- Flip.__init__ validation loop (lines 116-127): key presence, probability
in [0, 1], ndarray (always true in the model), rank exactly 5, in source
order, reading iter.data inside the loop. -/
def flipCheckLoop (inner : Iter) : List (String × ℚ) → Except PyError Unit
  | [] => .ok ()
  | (k, p) :: rest => do
    let d ← inner.getDataAttr
    match lookupKey d k with
    | none => throw .iteratorValidationError
    | some a =>
      if 1 < p ∨ p < 0 then throw .iteratorValidationError
      else if a.shape.length ≠ 5 then throw .iteratorValidationError
      else flipCheckLoop inner rest

/-- Flip.__init__ (lines 103-129). -/
def mkFlip (inner : Iter) (probD : Option (List (String × ℚ))) (rng : RNG) :
    Except PyError Iter := do
  let pd := probD.getD defaultProbDict
  flipCheckLoop inner pd
  pure (.flip rng pd inner)

/-- Pad.__init__ validation loop (lines 167-176): key presence, ndarray
(always true in the model), rank exactly 5. -/
def padCheckLoop (inner : Iter) : List (String × ℕ) → Except PyError Unit
  | [] => .ok ()
  | (k, _) :: rest => do
    let d ← inner.getDataAttr
    match lookupKey d k with
    | none => throw .iteratorValidationError
    | some a =>
      if a.shape.length ≠ 5 then throw .iteratorValidationError
      else padCheckLoop inner rest

/-- Pad.__init__ (lines 149-179): when a value dict is supplied its key set
must equal the size dict key set, raised as the validation error. -/
def mkPad (inner : Iter) (sizeD : List (String × ℕ))
    (valD : Option (List (String × ℚ))) (rng : RNG) : Except PyError Iter := do
  match valD with
  | some v => if sameKeySet sizeD v then pure () else throw .iteratorValidationError
  | none => pure ()
  padCheckLoop inner sizeD
  pure (.pad rng sizeD (valD.getD []) inner)

/-- RandomCrop.__init__ validation loop (lines 214-230): key presence,
ndarray and 2-tuple shape (always true in the model by typing), rank exactly
5, crop height within [0, sourceHeight], crop width within [0, sourceWidth].
Negative crop sizes cannot occur over naturals. -/
def cropCheckLoop (inner : Iter) : List (String × (ℕ × ℕ)) → Except PyError Unit
  | [] => .ok ()
  | (k, cs) :: rest => do
    let d ← inner.getDataAttr
    match lookupKey d k with
    | none => throw .iteratorValidationError
    | some a =>
      if a.shape.length ≠ 5 then throw .iteratorValidationError
      else if a.shape.getD 3 0 < cs.1 then throw .iteratorValidationError
      else if a.shape.getD 4 0 < cs.2 then throw .iteratorValidationError
      else cropCheckLoop inner rest

/-- RandomCrop.__init__ (lines 203-232). -/
def mkRandomCrop (inner : Iter) (shapeD : List (String × (ℕ × ℕ))) (rng : RNG) :
    Except PyError Iter := do
  cropCheckLoop inner shapeD
  pure (.randomCrop rng shapeD inner)

/-- Undivided.__init__ (lines 255-263): validate and store the dataset. -/
def mkUndivided (data : List (String × NDArray)) : Except PyError Iter := do
  let _ ← _assert_correct_data_format data
  pure (.undivided data)

/-- Online.__init__ (lines 274-282): validate, store the dataset, the shuffle
flag, the owned RNG and the common sample extent nr_sequences. -/
def mkOnline (shuffle : Bool) (rng : RNG) (data : List (String × NDArray)) :
    Except PyError Iter := do
  let n ← _assert_correct_data_format data
  pure (.online shuffle rng n data)

/-- Minibatches.__init__ (lines 311-322). -/
def mkMinibatches (batchSize : ℕ) (shuffle : Bool) (rng : RNG)
    (data : List (String × NDArray)) : Except PyError Iter := do
  let n ← _assert_correct_data_format data
  pure (.minibatches batchSize shuffle rng n data)

/-- int(math.ceil(n / k)) over naturals, for positive k.  Python true
division by zero would raise; every claim supposes a batch size of at least
one. -/
def ceilDivNat (n k : ℕ) : ℕ := (n + k - 1) / k

/-- Result of one full invocation of the production capability: the sequence
of yielded batches and the iterator state after exhaustion (advanced RNG
cursors, and the root dataset as left behind by dict aliasing). -/
structure RunOut where
  batches : List Batch
  post : Iter

/-- Dict-aliasing writeback: when the inner chain yields the root dataset
dict itself (Undivided at the root), the decorator loop has mutated that very
dict, so after the run the root dataset holds the last transformed batch. -/
def writeBack (origInner postInner : Iter) (ts : List Batch) : Iter :=
  if origInner.isAliased then
    match ts.getLast? with
    | some tb => postInner.setRootData tb
    | none => postInner
  else postInner

/-- One full invocation of __call__, fully consumed.  Undivided yields its
dataset once (line 266).  Online (lines 284-300) walks sample indices,
shuffled when requested, slicing every array to one sample.  Minibatches
(lines 324-343) walks ceil(nr_sequences / batch_size) block indices, shuffled
when requested, slicing every array to the block range, the final block
truncated by slicing.  Decorators pull the inner sequence and rebind the
configured entries of each received dict.  Progress printing is side-effect
output only and is not modelled. -/
def Iter.run : Iter → Except PyError RunOut
  | .undivided d => .ok ⟨[d], .undivided d⟩
  | .online sh rng n d =>
    let (idxs, rng1) := if sh then rng.shuffle (List.range n) else (List.range n, rng)
    .ok ⟨idxs.map (fun i => d.map (fun p => (p.1, sliceCols p.2 i (i + 1)))),
         .online sh rng1 n d⟩
  | .minibatches k sh rng n d =>
    let nb := ceilDivNat n k
    let (idxs, rng1) := if sh then rng.shuffle (List.range nb) else (List.range nb, rng)
    .ok ⟨idxs.map (fun i => d.map (fun p => (p.1, sliceCols p.2 (i * k) ((i + 1) * k)))),
         .minibatches k sh rng1 n d⟩
  | .addGaussianNoise rng stdD meanD inner => do
    let o ← inner.run
    let (ts, rng1) := noiseAll rng stdD meanD o.batches
    pure ⟨ts, .addGaussianNoise rng1 stdD meanD (writeBack inner o.post ts)⟩
  | .flip rng pD inner => do
    let o ← inner.run
    let (ts, rng1) := flipAll rng pD o.batches
    pure ⟨ts, .flip rng1 pD (writeBack inner o.post ts)⟩
  | .pad rng sD vD inner => do
    let o ← inner.run
    let ts ← padAll sD vD o.batches
    pure ⟨ts, .pad rng sD vD (writeBack inner o.post ts)⟩
  | .randomCrop rng sD inner => do
    let o ← inner.run
    let (ts, rng1) := cropAll rng sD o.batches
    pure ⟨ts, .randomCrop rng1 sD (writeBack inner o.post ts)⟩

/-- Two consecutive invocations of the same iterator object, state carried
over between them, returning both yielded sequences. -/
def runTwice (i : Iter) : Except PyError (List Batch × List Batch) := do
  let o1 ← i.run
  let o2 ← o1.post.run
  pure (o1.batches, o2.batches)

/-- Two invocations with every owned RNG reset to the same seeded state
before each one. -/
def runTwiceReset (i : Iter) (r : RNG) : Except PyError (List Batch × List Batch) := do
  let o1 ← (i.resetRNG r).run
  let o2 ← (o1.post.resetRNG r).run
  pure (o1.batches, o2.batches)

/-- Pipelines free of the Undivided dict-aliasing hazard: either a bare base
iterator, or a chain whose yielded dicts are built fresh per batch. -/
def Iter.okRoot (i : Iter) : Bool :=
  !i.isDecorator || !i.isAliased

/-- Constant raw stream at 0, cursor at 0: a concrete seeded RandomState. -/
def zeroStream : RNG := ⟨fun _ => 0, 0⟩

/-- Constant raw stream at one half, cursor at 0. -/
def halfStream : RNG := ⟨fun _ => 1 / 2, 0⟩

/-- A rank-3 array of shape (1, 3, 1), all zeros. -/
def arrShape3 : NDArray := ⟨[1, 3, 1], fun _ => 0⟩

/-- A rank-3 array of shape (1, 1, 1), all zeros. -/
def arrRank3zero : NDArray := ⟨[1, 1, 1], fun _ => 0⟩

/-- A rank-5 array of shape (1, 1, 1, 1, 1), constant value 7. -/
def arrRank5seven : NDArray := ⟨[1, 1, 1, 1, 1], fun _ => 7⟩

/-- A rank-5 array of shape (1, 1, 1, 2, 2), constant value 3. -/
def arrCrop : NDArray := ⟨[1, 1, 1, 2, 2], fun _ => 3⟩

lemma fract01_nonneg (q : ℚ) : 0 ≤ fract01 q := by
  unfold fract01
  positivity

lemma fract01_lt_one (q : ℚ) : fract01 q < 1 := by
  unfold fract01
  rw [div_lt_one (by exact_mod_cast q.den_pos)]
  exact_mod_cast Nat.mod_lt _ q.den_pos

lemma natDrawBelow_le (q : ℚ) (m : ℕ) : natDrawBelow q (m + 1) ≤ m :=
  Nat.lt_succ_iff.mp (Nat.mod_lt _ (Nat.succ_pos m))

lemma randIntList_le (r : RNG) (maxv n : ℕ) :
    ∀ x ∈ (randIntList r maxv n).1, x ≤ maxv := by
  induction n generalizing r with
  | zero => intro x hx; simp [randIntList] at hx
  | succ m ih =>
    intro x hx
    simp only [randIntList, RNG.randIntLe, RNG.next, List.mem_cons] at hx
    rcases hx with h | h
    · subst h; exact natDrawBelow_le _ _
    · exact ih _ x h

lemma randIntList_getD_le (r : RNG) (maxv n i : ℕ) :
    ((randIntList r maxv n).1).getD i 0 ≤ maxv := by
  induction n generalizing r i with
  | zero => simp [randIntList, List.getD]
  | succ m ih =>
    cases i with
    | zero =>
      simp only [randIntList, RNG.randIntLe, RNG.next, List.getD]
      exact natDrawBelow_le _ _
    | succ j =>
      simp only [randIntList, RNG.randIntLe, RNG.next, List.getD_cons_succ]
      exact ih _ j

lemma swapAt2_length (l : List ℕ) (i j : ℕ) : (swapAt2 l i j).length = l.length := by
  unfold swapAt2
  cases hi : l.get? i <;> cases hj : l.get? j <;> simp

lemma mem_swapAt2 (l : List ℕ) (i j x : ℕ) (h : x ∈ swapAt2 l i j) : x ∈ l := by
  unfold swapAt2 at h
  cases hi : l.get? i with
  | none => rw [hi] at h; exact h
  | some a =>
    cases hj : l.get? j with
    | none => rw [hi, hj] at h; exact h
    | some b =>
      rw [hi, hj] at h
      rcases List.mem_or_eq_of_mem_set h with h1 | h1
      · rcases List.mem_or_eq_of_mem_set h1 with h2 | h2
        · exact h2
        · subst h2
          exact List.get?_mem hj
      · subst h1
        exact List.get?_mem hi

lemma shuffleAux_length (l : List ℕ) (r : RNG) (n : ℕ) :
    ((shuffleAux r l n).1).length = l.length := by
  induction n generalizing r l with
  | zero => simp [shuffleAux]
  | succ m ih =>
    simp only [shuffleAux]
    rw [ih]
    exact swapAt2_length l _ _

lemma mem_shuffleAux (l : List ℕ) (r : RNG) (n x : ℕ)
    (h : x ∈ (shuffleAux r l n).1) : x ∈ l := by
  induction n generalizing r l with
  | zero => simpa [shuffleAux] using h
  | succ m ih =>
    simp only [shuffleAux] at h
    exact mem_swapAt2 _ _ _ _ (ih _ _ h)

lemma shuffle_length (r : RNG) (l : List ℕ) : ((r.shuffle l).1).length = l.length :=
  shuffleAux_length l r (l.length - 1)

lemma mem_shuffle (r : RNG) (l : List ℕ) (x : ℕ) (h : x ∈ (r.shuffle l).1) : x ∈ l :=
  mem_shuffleAux l r (l.length - 1) x h

lemma lookupKey_cons {α : Type} (k : String) (v : α) (l : List (String × α)) (k2 : String) :
    lookupKey ((k, v) :: l) k2 = if k = k2 then some v else lookupKey l k2 := by
  by_cases h : k = k2 <;> simp [lookupKey, List.find?_cons, h]

lemma mapEntry_cons (k1 : String) (v1 : NDArray) (rest : Batch) (k : String)
    (f : NDArray → NDArray) :
    mapEntry ((k1, v1) :: rest) k f =
      (if k1 = k then (k1, f v1) else (k1, v1)) :: mapEntry rest k f := by
  by_cases h : k1 = k <;> simp [mapEntry, h]

lemma lookupKey_mapEntry_self (b : Batch) (k : String) (f : NDArray → NDArray) :
    lookupKey (mapEntry b k f) k = (lookupKey b k).map f := by
  induction b with
  | nil => simp [lookupKey, mapEntry]
  | cons p rest ih =>
    obtain ⟨k1, v1⟩ := p
    rw [mapEntry_cons]
    by_cases h : k1 = k
    · subst h
      simp [lookupKey_cons]
    · simp [lookupKey_cons, h, ih]

lemma lookupKey_mapEntry_ne (b : Batch) (k k2 : String) (f : NDArray → NDArray)
    (h : k ≠ k2) : lookupKey (mapEntry b k f) k2 = lookupKey b k2 := by
  induction b with
  | nil => simp [lookupKey, mapEntry]
  | cons p rest ih =>
    obtain ⟨k1, v1⟩ := p
    rw [mapEntry_cons]
    by_cases h1 : k1 = k
    · subst h1
      simp [lookupKey_cons, h, ih]
    · by_cases h2 : k1 = k2
      · subst h2
        simp [lookupKey_cons, h1]
      · simp [lookupKey_cons, h1, h2, ih]

lemma pymin_ok_le (l : List ℕ) (m : ℕ) (h : pymin l = .ok m) : ∀ x ∈ l, m ≤ x := by
  cases l with
  | nil => simp [pymin] at h
  | cons a xs =>
    simp only [pymin, Except.ok.injEq] at h
    subst h
    have key : ∀ (ys : List ℕ) (a0 : ℕ),
        ys.foldl min a0 ≤ a0 ∧ ∀ y ∈ ys, ys.foldl min a0 ≤ y := by
      intro ys
      induction ys with
      | nil => intro a0; simp
      | cons y ys ih =>
        intro a0
        obtain ⟨h1, h2⟩ := ih (min a0 y)
        refine ⟨le_trans h1 (min_le_left _ _), ?_⟩
        intro z hz
        rcases List.mem_cons.mp hz with rfl | hz
        · exact le_trans h1 (min_le_right _ _)
        · exact h2 z hz
    intro x hx
    rcases List.mem_cons.mp hx with rfl | hx
    · exact (key xs x).1
    · exact (key xs a).2 x hx

lemma pymax_ok_ge (l : List ℕ) (m : ℕ) (h : pymax l = .ok m) : ∀ x ∈ l, x ≤ m := by
  cases l with
  | nil => simp [pymax] at h
  | cons a xs =>
    simp only [pymax, Except.ok.injEq] at h
    subst h
    have key : ∀ (ys : List ℕ) (a0 : ℕ),
        a0 ≤ ys.foldl max a0 ∧ ∀ y ∈ ys, y ≤ ys.foldl max a0 := by
      intro ys
      induction ys with
      | nil => intro a0; simp
      | cons y ys ih =>
        intro a0
        obtain ⟨h1, h2⟩ := ih (max a0 y)
        refine ⟨le_trans (le_max_left _ _) h1, ?_⟩
        intro z hz
        rcases List.mem_cons.mp hz with rfl | hz
        · exact le_trans (le_max_right _ _) h1
        · exact h2 z hz
    intro x hx
    rcases List.mem_cons.mp hx with rfl | hx
    · exact (key xs x).1
    · exact (key xs a).2 x hx

/-- Successful validation pins every array to rank at least 3, a common
sample extent equal to the returned value, and a nonempty mapping. -/
lemma validator_props (nd : List (String × NDArray)) (B : ℕ)
    (h : _assert_correct_data_format nd = .ok B) :
    nd ≠ [] ∧ (∀ p ∈ nd, 3 ≤ p.2.shape.length) ∧
    (∀ p ∈ nd, p.2.shape.getD 1 0 = B) := by
  unfold _assert_correct_data_format at h
  split at h
  · simp at h
  · rename_i hfind
    have hrank : ∀ p ∈ nd, 3 ≤ p.2.shape.length := by
      intro p hp
      have := List.find?_eq_none.mp hfind p hp
      simpa using this
    have hnil : nd ≠ [] := by
      intro hn
      subst hn
      simp [pymin] at h
    refine ⟨hnil, hrank, ?_⟩
    split at h
    · simp at h
    · simp at h
    · rename_i mns mxs hmin hmax
      split at h
      · simp at h
      · rename_i hmm
        split at h
        · simp at h
        · simp at h
        · split at h
          · simp at h
          · intro p hp
            have hmem : p.2.shape.getD 1 0 ∈ nd.map (fun p => p.2.shape.getD 1 0) :=
              List.mem_map_of_mem _ hp
            have h1 := pymin_ok_le _ B h _ hmem
            have hBm : mns = B := by
              rw [h] at hmin
              simpa using hmin.symm
            have hmx : mns = mxs := by
              by_contra hc
              exact hmm hc
            have h2 := pymax_ok_ge _ mxs hmax _ hmem
            omega

lemma getD_set_of_lt (l : List ℕ) (i x : ℕ) (h : i < l.length) :
    (l.set i x).getD i 0 = x := by
  simp [List.getD_eq_getElem?_getD, List.getElem?_set_self h]

lemma sliceCols_shape (a : NDArray) (lo hi : ℕ) :
    (sliceCols a lo hi).shape =
      a.shape.set 1 (min hi (a.shape.getD 1 0) - min lo (a.shape.getD 1 0)) := rfl

lemma sliceCols_extent (a : NDArray) (lo hi : ℕ) (h : 2 ≤ a.shape.length) :
    (sliceCols a lo hi).shape.getD 1 0 =
      min hi (a.shape.getD 1 0) - min lo (a.shape.getD 1 0) := by
  rw [sliceCols_shape]
  exact getD_set_of_lt _ _ _ (by omega)

lemma ceilDivNat_eq (n k : ℕ) (hk : 1 ≤ k) :
    ceilDivNat n k = if n % k = 0 then n / k else n / k + 1 := by
  have h0 := Nat.div_add_mod n k
  have h1 : n % k < k := Nat.mod_lt _ hk
  unfold ceilDivNat
  by_cases hr : n % k = 0
  · rw [if_pos hr]
    have hq : n + k - 1 = k * (n / k) + (k - 1) := by omega
    rw [hq, Nat.mul_add_div (by omega)]
    have : (k - 1) / k = 0 := Nat.div_eq_of_lt (by omega)
    omega
  · rw [if_neg hr]
    have hq : n + k - 1 = k * (n / k + 1) + (n % k - 1) := by
      rw [Nat.mul_succ]
      omega
    rw [hq, Nat.mul_add_div (by omega)]
    have : (n % k - 1) / k = 0 := Nat.div_eq_of_lt (by omega)
    omega

lemma ceilDivNat_facts (n k : ℕ) (hk : 1 ≤ k) :
    n ≤ ceilDivNat n k * k ∧
    (n = 0 → ceilDivNat n k = 0) ∧
    (1 ≤ n → (ceilDivNat n k - 1) * k < n) ∧
    (1 ≤ n → n - (ceilDivNat n k - 1) * k = if n % k = 0 then k else n % k) := by
  have h0 := Nat.div_add_mod (n + k - 1) k
  have h1 : (n + k - 1) % k < k := Nat.mod_lt _ hk
  refine ⟨?_, ?_, ?_, ?_⟩
  · show n ≤ (n + k - 1) / k * k
    rw [Nat.mul_comm]
    omega
  · intro hn
    subst hn
    show (0 + k - 1) / k = 0
    exact Nat.div_eq_of_lt (by omega)
  · intro hn
    show ((n + k - 1) / k - 1) * k < n
    rw [Nat.sub_mul, Nat.one_mul, Nat.mul_comm]
    omega
  · intro hn
    have h2 := Nat.div_add_mod n k
    have h3 : n % k < k := Nat.mod_lt _ hk
    rw [ceilDivNat_eq n k hk]
    by_cases hr : n % k = 0
    · rw [if_pos hr, if_pos hr]
      cases hq : n / k with
      | zero =>
        rw [hq] at h2
        simp at h2
        omega
      | succ q2 =>
        rw [hq] at h2
        rw [Nat.mul_succ] at h2
        rw [Nat.add_sub_cancel, Nat.mul_comm]
        omega
    · rw [if_neg hr, if_neg hr]
      rw [Nat.add_sub_cancel, Nat.mul_comm]
      omega

lemma lookupKey_eq_none_iff {α : Type} (l : List (String × α)) (k : String) :
    lookupKey l k = none ↔ k ∉ keysOf l := by
  induction l with
  | nil => simp [lookupKey, keysOf]
  | cons q rest ih =>
    obtain ⟨k1, v1⟩ := q
    rw [lookupKey_cons]
    by_cases h : k1 = k
    · subst h
      simp [keysOf]
    · simp only [if_neg h, keysOf, List.map_cons, List.mem_cons]
      rw [ih]
      simp [keysOf, Ne.symm h]

lemma flipBatchAux_not_key (pd : List (String × ℚ)) (name : String)
    (h : lookupKey pd name = none) :
    ∀ r b, lookupKey ((flipBatchAux r b pd).1) name = lookupKey b name := by
  induction pd with
  | nil => intro r b; simp [flipBatchAux]
  | cons q rest ih =>
    obtain ⟨k, p⟩ := q
    rw [lookupKey_cons] at h
    by_cases hk : k = name
    · rw [if_pos hk] at h
      exact absurd h (by simp)
    · rw [if_neg hk] at h
      intro r b
      simp only [flipBatchAux, RNG.randomSample, RNG.next]
      by_cases hc : fract01 (r.stream r.pos) < p
      · rw [if_pos hc, ih h]
        exact lookupKey_mapEntry_ne b k name _ hk
      · rw [if_neg hc, ih h]

lemma flipBatchAux_prob_one (pd : List (String × ℚ)) (name : String)
    (hnod : (keysOf pd).Nodup) (h : lookupKey pd name = some 1) :
    ∀ r b, lookupKey ((flipBatchAux r b pd).1) name =
      (lookupKey b name).map reverseLast := by
  induction pd with
  | nil => simp [lookupKey] at h
  | cons q rest ih =>
    obtain ⟨k, p⟩ := q
    rw [lookupKey_cons] at h
    have hnod2 : (keysOf rest).Nodup := by
      simpa [keysOf] using List.Nodup.of_cons (by simpa [keysOf] using hnod)
    by_cases hk : k = name
    · rw [if_pos hk] at h
      have hp : p = 1 := by simpa using h
      have hmem : k ∉ keysOf rest := by
        have := hnod
        simp only [keysOf, List.map_cons] at this
        exact (List.nodup_cons.mp this).1
      have hnone : lookupKey rest name = none := by
        rw [lookupKey_eq_none_iff]
        rw [← hk]
        exact hmem
      intro r b
      simp only [flipBatchAux, RNG.randomSample, RNG.next]
      have hc : fract01 (r.stream r.pos) < p := by
        rw [hp]
        exact fract01_lt_one _
      rw [if_pos hc, flipBatchAux_not_key rest name hnone]
      rw [← hk]
      exact lookupKey_mapEntry_self b k reverseLast
    · rw [if_neg hk] at h
      intro r b
      simp only [flipBatchAux, RNG.randomSample, RNG.next]
      by_cases hc : fract01 (r.stream r.pos) < p
      · rw [if_pos hc, ih hnod2 h]
        rw [lookupKey_mapEntry_ne b k name _ hk]
      · rw [if_neg hc, ih hnod2 h]

lemma flipBatchAux_prob_zero (pd : List (String × ℚ)) (name : String)
    (hnod : (keysOf pd).Nodup) (h : lookupKey pd name = some 0) :
    ∀ r b, lookupKey ((flipBatchAux r b pd).1) name = lookupKey b name := by
  induction pd with
  | nil => simp [lookupKey] at h
  | cons q rest ih =>
    obtain ⟨k, p⟩ := q
    rw [lookupKey_cons] at h
    have hnod2 : (keysOf rest).Nodup := by
      simpa [keysOf] using List.Nodup.of_cons (by simpa [keysOf] using hnod)
    by_cases hk : k = name
    · rw [if_pos hk] at h
      have hp : p = 0 := by simpa using h
      have hmem : k ∉ keysOf rest := by
        have := hnod
        simp only [keysOf, List.map_cons] at this
        exact (List.nodup_cons.mp this).1
      have hnone : lookupKey rest name = none := by
        rw [lookupKey_eq_none_iff]
        rw [← hk]
        exact hmem
      intro r b
      simp only [flipBatchAux, RNG.randomSample, RNG.next]
      have hc : ¬ fract01 (r.stream r.pos) < p := by
        rw [hp]
        exact not_lt.mpr (fract01_nonneg _)
      rw [if_neg hc, flipBatchAux_not_key rest name hnone]
    · rw [if_neg hk] at h
      intro r b
      simp only [flipBatchAux, RNG.randomSample, RNG.next]
      by_cases hc : fract01 (r.stream r.pos) < p
      · rw [if_pos hc, ih hnod2 h]
        rw [lookupKey_mapEntry_ne b k name _ hk]
      · rw [if_neg hc, ih hnod2 h]

lemma cropBatchAux_not_key (sd : List (String × (ℕ × ℕ))) (name : String)
    (h : lookupKey sd name = none) :
    ∀ r b, lookupKey ((cropBatchAux r b sd).1) name = lookupKey b name := by
  induction sd with
  | nil => intro r b; simp [cropBatchAux]
  | cons q rest ih =>
    obtain ⟨k, cs⟩ := q
    rw [lookupKey_cons] at h
    by_cases hk : k = name
    · rw [if_pos hk] at h
      exact absurd h (by simp)
    · rw [if_neg hk] at h
      intro r b
      simp only [cropBatchAux]
      cases hb : lookupKey b k with
      | none => rw [ih h]
      | some a =>
        rw [ih h]
        exact lookupKey_mapEntry_ne b k name _ hk

lemma cropBatchAux_lookup (sd : List (String × (ℕ × ℕ))) (name : String) (ch cw : ℕ)
    (hnod : (keysOf sd).Nodup) (h : lookupKey sd name = some (ch, cw)) :
    ∀ r b a, lookupKey b name = some a →
      ∃ r2 : RNG, lookupKey ((cropBatchAux r b sd).1) name =
        some ((cropOne r2 ch cw a).1) := by
  induction sd with
  | nil => simp [lookupKey] at h
  | cons q rest ih =>
    obtain ⟨k, cs⟩ := q
    rw [lookupKey_cons] at h
    have hnod2 : (keysOf rest).Nodup := by
      simpa [keysOf] using List.Nodup.of_cons (by simpa [keysOf] using hnod)
    by_cases hk : k = name
    · rw [if_pos hk] at h
      have hcs : cs = (ch, cw) := by simpa using h
      have hmem : k ∉ keysOf rest := by
        have := hnod
        simp only [keysOf, List.map_cons] at this
        exact (List.nodup_cons.mp this).1
      have hnone : lookupKey rest name = none := by
        rw [lookupKey_eq_none_iff, ← hk]
        exact hmem
      intro r b a hb
      refine ⟨r, ?_⟩
      simp only [cropBatchAux]
      rw [hk, hb]
      rw [cropBatchAux_not_key rest name hnone]
      rw [lookupKey_mapEntry_self]
      rw [hb, hcs]
      rfl
    · rw [if_neg hk] at h
      intro r b a hb
      simp only [cropBatchAux]
      cases hbk : lookupKey b k with
      | none => exact ih hnod2 h _ _ _ hb
      | some a2 =>
        refine ih hnod2 h _ _ a ?_
        rw [lookupKey_mapEntry_ne b k name _ hk]
        exact hb

lemma isAliased_resetRNG (i : Iter) (r : RNG) : (i.resetRNG r).isAliased = i.isAliased := by
  induction i with
  | undivided d => rfl
  | online sh rng n d => rfl
  | minibatches k sh rng n d => rfl
  | addGaussianNoise rng sD mD inner ih => simpa [Iter.resetRNG, Iter.isAliased] using ih
  | flip rng pD inner ih => simpa [Iter.resetRNG, Iter.isAliased] using ih
  | pad rng sD vD inner ih => simpa [Iter.resetRNG, Iter.isAliased] using ih
  | randomCrop rng sD inner ih => simpa [Iter.resetRNG, Iter.isAliased] using ih

lemma okRoot_resetRNG (i : Iter) (r : RNG) : (i.resetRNG r).okRoot = i.okRoot := by
  cases i with
  | undivided d => rfl
  | online sh rng n d => rfl
  | minibatches k sh rng n d => rfl
  | addGaussianNoise rng sD mD inner =>
    simp [Iter.okRoot, Iter.resetRNG, Iter.isDecorator, Iter.isAliased, isAliased_resetRNG]
  | flip rng pD inner =>
    simp [Iter.okRoot, Iter.resetRNG, Iter.isDecorator, Iter.isAliased, isAliased_resetRNG]
  | pad rng sD vD inner =>
    simp [Iter.okRoot, Iter.resetRNG, Iter.isDecorator, Iter.isAliased, isAliased_resetRNG]
  | randomCrop rng sD inner =>
    simp [Iter.okRoot, Iter.resetRNG, Iter.isDecorator, Iter.isAliased, isAliased_resetRNG]

lemma resetRNG_idem (i : Iter) (r : RNG) : (i.resetRNG r).resetRNG r = i.resetRNG r := by
  induction i with
  | undivided d => rfl
  | online sh rng n d => rfl
  | minibatches k sh rng n d => rfl
  | addGaussianNoise rng sD mD inner ih => simp [Iter.resetRNG, ih]
  | flip rng pD inner ih => simp [Iter.resetRNG, ih]
  | pad rng sD vD inner ih => simp [Iter.resetRNG, ih]
  | randomCrop rng sD inner ih => simp [Iter.resetRNG, ih]

/-- After a full run of a pipeline that is not a decorator chain over
Undivided, the post state differs from the initial one only in the RNG
cursors, so resetting every RNG recovers the initial iterator. -/
lemma run_post_resetRNG (i : Iter) :
    i.okRoot = true → ∀ o : RunOut, i.run = .ok o → ∀ r : RNG,
      o.post.resetRNG r = i.resetRNG r := by
  induction i with
  | undivided d =>
    intro _ o h r
    have h2 := Except.ok.inj h
    rw [← h2]
  | online sh rng n d =>
    intro _ o h r
    have h2 := Except.ok.inj h
    rw [← h2]
    rfl
  | minibatches k sh rng n d =>
    intro _ o h r
    have h2 := Except.ok.inj h
    rw [← h2]
    rfl
  | addGaussianNoise rng sD mD inner ih =>
    intro hok o h r
    have hal : inner.isAliased = false := by
      simpa [Iter.okRoot, Iter.isDecorator, Iter.isAliased] using hok
    have hok2 : inner.okRoot = true := by
      simp [Iter.okRoot, hal]
    simp only [Iter.run] at h
    cases hin : inner.run with
    | error e => rw [hin] at h; exact Except.noConfusion h
    | ok oin =>
      rw [hin] at h
      have h2 := Except.ok.inj h
      rw [← h2]
      show (Iter.addGaussianNoise _ sD mD (writeBack inner oin.post _)).resetRNG r = _
      simp only [Iter.resetRNG, writeBack, hal, Bool.false_eq_true, if_false]
      rw [ih hok2 oin hin r]
  | flip rng pD inner ih =>
    intro hok o h r
    have hal : inner.isAliased = false := by
      simpa [Iter.okRoot, Iter.isDecorator, Iter.isAliased] using hok
    have hok2 : inner.okRoot = true := by
      simp [Iter.okRoot, hal]
    simp only [Iter.run] at h
    cases hin : inner.run with
    | error e => rw [hin] at h; exact Except.noConfusion h
    | ok oin =>
      rw [hin] at h
      have h2 := Except.ok.inj h
      rw [← h2]
      show (Iter.flip _ pD (writeBack inner oin.post _)).resetRNG r = _
      simp only [Iter.resetRNG, writeBack, hal, Bool.false_eq_true, if_false]
      rw [ih hok2 oin hin r]
  | pad rng sD vD inner ih =>
    intro hok o h r
    have hal : inner.isAliased = false := by
      simpa [Iter.okRoot, Iter.isDecorator, Iter.isAliased] using hok
    have hok2 : inner.okRoot = true := by
      simp [Iter.okRoot, hal]
    simp only [Iter.run] at h
    cases hin : inner.run with
    | error e => rw [hin] at h; exact Except.noConfusion h
    | ok oin =>
      rw [hin] at h
      have h3 : Except.bind (padAll sD vD oin.batches)
          (fun ts => Except.ok
            (⟨ts, Iter.pad rng sD vD (writeBack inner oin.post ts)⟩ : RunOut)) =
          Except.ok o := h
      cases hts : padAll sD vD oin.batches with
      | error e =>
        rw [hts] at h3
        exact Except.noConfusion h3
      | ok ts =>
        rw [hts] at h3
        have h2 := Except.ok.inj h3
        rw [← h2]
        show (Iter.pad rng sD vD (writeBack inner oin.post ts)).resetRNG r = _
        simp only [Iter.resetRNG, writeBack, hal, Bool.false_eq_true, if_false]
        rw [ih hok2 oin hin r]
  | randomCrop rng sD inner ih =>
    intro hok o h r
    have hal : inner.isAliased = false := by
      simpa [Iter.okRoot, Iter.isDecorator, Iter.isAliased] using hok
    have hok2 : inner.okRoot = true := by
      simp [Iter.okRoot, hal]
    simp only [Iter.run] at h
    cases hin : inner.run with
    | error e => rw [hin] at h; exact Except.noConfusion h
    | ok oin =>
      rw [hin] at h
      have h2 := Except.ok.inj h
      rw [← h2]
      show (Iter.randomCrop _ sD (writeBack inner oin.post _)).resetRNG r = _
      simp only [Iter.resetRNG, writeBack, hal, Bool.false_eq_true, if_false]
      rw [ih hok2 oin hin r]

lemma getD_map_range {α : Type} (nb i : ℕ) (f : ℕ → α) (dflt : α) (h : i < nb) :
    ((List.range nb).map f).getD i dflt = f i := by
  simp [List.getD_eq_getElem?_getD, List.getElem?_map, List.getElem?_range, h]

lemma getDataAttr_of_decorator (i : Iter) (h : i.isDecorator = true) :
    i.getDataAttr = .error .attributeError := by
  cases i <;> first | rfl | simp [Iter.isDecorator] at h

lemma agnCheckLoop_ok (inner : Iter) (d : List (String × NDArray))
    (hd : inner.getDataAttr = .ok d) (stdD : List (String × ℚ))
    (h : ∀ q ∈ stdD, hasKey d q.1 = true) : agnCheckLoop inner stdD = .ok () := by
  induction stdD with
  | nil => rfl
  | cons q rest ih =>
    obtain ⟨k, sv⟩ := q
    have hk : hasKey d k = true := h (k, sv) (by simp)
    simp only [agnCheckLoop, hd]
    show (if hasKey d k then agnCheckLoop inner rest else
      Except.error PyError.iteratorValidationError) = .ok ()
    rw [hk, if_pos rfl]
    exact ih (fun q hq => h q (by simp [hq]))

lemma flipCheckLoop_ok (inner : Iter) (d : List (String × NDArray))
    (hd : inner.getDataAttr = .ok d) (pd : List (String × ℚ))
    (h : ∀ q ∈ pd, 0 ≤ q.2 ∧ q.2 ≤ 1 ∧
      ∃ a, lookupKey d q.1 = some a ∧ a.shape.length = 5) :
    flipCheckLoop inner pd = .ok () := by
  induction pd with
  | nil => rfl
  | cons q rest ih =>
    obtain ⟨k, p⟩ := q
    obtain ⟨h0, h1, a, ha, h5⟩ := h (k, p) (by simp)
    simp only [flipCheckLoop, hd]
    show (match lookupKey d k with
      | none => Except.error PyError.iteratorValidationError
      | some a =>
        if 1 < p ∨ p < 0 then Except.error PyError.iteratorValidationError
        else if a.shape.length ≠ 5 then Except.error PyError.iteratorValidationError
        else flipCheckLoop inner rest) = .ok ()
    rw [ha]
    show (if 1 < p ∨ p < 0 then Except.error PyError.iteratorValidationError
      else if a.shape.length ≠ 5 then Except.error PyError.iteratorValidationError
      else flipCheckLoop inner rest) = .ok ()
    rw [if_neg (by rw [not_or]; exact ⟨not_lt.mpr h1, not_lt.mpr h0⟩)]
    rw [if_neg (by simpa using h5)]
    exact ih (fun q hq => h q (by simp [hq]))

lemma padCheckLoop_ok (inner : Iter) (d : List (String × NDArray))
    (hd : inner.getDataAttr = .ok d) (sd : List (String × ℕ))
    (h : ∀ q ∈ sd, ∃ a, lookupKey d q.1 = some a ∧ a.shape.length = 5) :
    padCheckLoop inner sd = .ok () := by
  induction sd with
  | nil => rfl
  | cons q rest ih =>
    obtain ⟨k, sv⟩ := q
    obtain ⟨a, ha, h5⟩ := h (k, sv) (by simp)
    simp only [padCheckLoop, hd]
    show (match lookupKey d k with
      | none => Except.error PyError.iteratorValidationError
      | some a =>
        if a.shape.length ≠ 5 then Except.error PyError.iteratorValidationError
        else padCheckLoop inner rest) = .ok ()
    rw [ha]
    show (if a.shape.length ≠ 5 then Except.error PyError.iteratorValidationError
      else padCheckLoop inner rest) = .ok ()
    rw [if_neg (by simpa using h5)]
    exact ih (fun q hq => h q (by simp [hq]))

lemma cropCheckLoop_ok (inner : Iter) (d : List (String × NDArray))
    (hd : inner.getDataAttr = .ok d) (cd : List (String × (ℕ × ℕ)))
    (h : ∀ q ∈ cd, ∃ a, lookupKey d q.1 = some a ∧ a.shape.length = 5 ∧
      q.2.1 ≤ a.shape.getD 3 0 ∧ q.2.2 ≤ a.shape.getD 4 0) :
    cropCheckLoop inner cd = .ok () := by
  induction cd with
  | nil => rfl
  | cons q rest ih =>
    obtain ⟨k, cs⟩ := q
    obtain ⟨a, ha, h5, hh, hw⟩ := h (k, cs) (by simp)
    dsimp only at ha hh hw
    simp only [cropCheckLoop, hd]
    show (match lookupKey d k with
      | none => Except.error PyError.iteratorValidationError
      | some a =>
        if a.shape.length ≠ 5 then Except.error PyError.iteratorValidationError
        else if a.shape.getD 3 0 < cs.1 then Except.error PyError.iteratorValidationError
        else if a.shape.getD 4 0 < cs.2 then Except.error PyError.iteratorValidationError
        else cropCheckLoop inner rest) = .ok ()
    rw [ha]
    show (if a.shape.length ≠ 5 then Except.error PyError.iteratorValidationError
      else if a.shape.getD 3 0 < cs.1 then Except.error PyError.iteratorValidationError
      else if a.shape.getD 4 0 < cs.2 then Except.error PyError.iteratorValidationError
      else cropCheckLoop inner rest) = .ok ()
    rw [if_neg (by simpa using h5)]
    rw [if_neg (by omega)]
    rw [if_neg (by omega)]
    exact ih (fun q hq => h q (by simp [hq]))

/-- Claim C10 (confirmed): constructing any base iterator on an empty
named-data mapping fails, and the error the shape validator raises there is
ValueError, from Python min() over an empty sequence, not the iterator
validation error kind. -/
theorem c10_empty_mapping_value_error :
    _assert_correct_data_format [] = .error .valueError ∧
    mkUndivided [] = .error .valueError ∧
    (∀ (sh : Bool) (r : RNG), mkOnline sh r [] = .error .valueError) ∧
    (∀ (k : ℕ) (sh : Bool) (r : RNG), mkMinibatches k sh r [] = .error .valueError) ∧
    PyError.isValidationError .valueError = false :=
  ⟨rfl, rfl, fun _ _ => rfl, fun _ _ _ => rfl, rfl⟩

/-- Claim C3 counterexample: constructing AddGaussianNoise over a valid base
iterator with mean keys not matching std keys raises AssertionError, which is
not the iterator validation error kind the claim requires. -/
theorem c3_counterexample_assertion_error :
    (do
      let base ← mkUndivided [("a", arrRank3zero)]
      mkAddGaussianNoise base [("a", 1)] (some [("b", 1)]) zeroStream)
      = Except.error PyError.assertionError ∧
    PyError.isValidationError PyError.assertionError = false :=
  ⟨rfl, rfl⟩

/-- Claim C3 (corrected): a mean and std key-set mismatch in AddGaussianNoise
is checked by a bare assert statement and therefore raises AssertionError, a
kind distinct from the iterator validation error, for every inner iterator
and every pair of dictionaries with differing key sets. -/
theorem c3_amended_keyset_mismatch_assertion (inner : Iter)
    (stdD meanD : List (String × ℚ)) (r : RNG)
    (h : sameKeySet meanD stdD = false) :
    mkAddGaussianNoise inner stdD (some meanD) r = .error .assertionError ∧
    PyError.isValidationError .assertionError = false := by
  refine ⟨?_, rfl⟩
  simp only [mkAddGaussianNoise]
  rw [h]
  rfl

/-- Witness for the amended C3 theorem at a concrete input. -/
theorem c3_amended_witness :
    sameKeySet [(("b" : String), (1 : ℚ))] [(("a" : String), (1 : ℚ))] = false ∧
    (mkAddGaussianNoise (.undivided [("a", arrRank3zero)]) [("a", 1)]
        (some [("b", 1)]) zeroStream = .error .assertionError ∧
      PyError.isValidationError .assertionError = false) :=
  ⟨rfl, c3_amended_keyset_mismatch_assertion (.undivided [("a", arrRank3zero)])
    [("a", 1)] [("b", 1)] zeroStream rfl⟩

/-- Claim C4 (code bug): Undivided yields its own dataset dict, and
AddGaussianNoise rebinds the configured key of that very dict, so after one
fully consumed invocation the base iterator dataset no longer holds the
construction-time value: the entry named a held 0 at index (0,0,0) and holds
0 + 1 * (1/2) + 0 afterwards. -/
theorem c4_undivided_dataset_mutated :
    ((do
        let base ← mkUndivided [("a", arrRank3zero)]
        mkAddGaussianNoise base [("a", 1)] none halfStream).bind Iter.run).map
        (fun (o : RunOut) => (lookupKey o.post.rootData ("a")).map
          (fun (a : NDArray) => a.val [0, 0, 0]))
      = .ok (some (0 + 1 * (1 / 2) + 0)) ∧
    arrRank3zero.val [0, 0, 0] = 0 ∧
    ((0 : ℚ) + 1 * (1 / 2) + 0) ≠ 0 := by
  refine ⟨rfl, rfl, by norm_num⟩

/-- Claim C1 counterexample: wrapping the Flip decorator around an
AddGaussianNoise decorator, with the default configured name present in the
pipeline data, fails with AttributeError instead of succeeding, because
decorators do not store the data attribute their validation loops read. -/
theorem c1_counterexample_chain_attribute_error :
    (do
      let base ← mkUndivided [("default", arrRank5seven)]
      let noised ← mkAddGaussianNoise base [("default", 1)] none zeroStream
      mkFlip noised none zeroStream)
      = Except.error PyError.attributeError :=
  rfl

/-- Claim C1 (corrected): a decorator with any configured name can only wrap
a base iterator.  Wrapping a decorator fails with AttributeError (decorators
never store self.data), while wrapping an iterator that exposes the data
attribute succeeds whenever every configured name passes the per-decorator
checks. -/
theorem c1_amended_decorator_wrapping :
    (∀ (inner : Iter) (r : RNG), inner.isDecorator = true →
      (∀ (k : String) (sv : ℚ) (rest : List (String × ℚ)),
        mkAddGaussianNoise inner ((k, sv) :: rest) none r = .error .attributeError) ∧
      mkFlip inner none r = .error .attributeError ∧
      (∀ (k : String) (sv : ℕ) (rest : List (String × ℕ)),
        mkPad inner ((k, sv) :: rest) none r = .error .attributeError) ∧
      (∀ (k : String) (cs : ℕ × ℕ) (rest : List (String × (ℕ × ℕ))),
        mkRandomCrop inner ((k, cs) :: rest) r = .error .attributeError)) ∧
    (∀ (inner : Iter) (d : List (String × NDArray)) (r : RNG),
      inner.getDataAttr = .ok d →
      (∀ (stdD : List (String × ℚ)),
        (∀ q ∈ stdD, hasKey d q.1 = true) →
        mkAddGaussianNoise inner stdD none r = .ok (.addGaussianNoise r stdD [] inner)) ∧
      (∀ (pd : List (String × ℚ)),
        (∀ q ∈ pd, 0 ≤ q.2 ∧ q.2 ≤ 1 ∧
          ∃ a, lookupKey d q.1 = some a ∧ a.shape.length = 5) →
        mkFlip inner (some pd) r = .ok (.flip r pd inner)) ∧
      (∀ (sd : List (String × ℕ)),
        (∀ q ∈ sd, ∃ a, lookupKey d q.1 = some a ∧ a.shape.length = 5) →
        mkPad inner sd none r = .ok (.pad r sd [] inner)) ∧
      (∀ (cd : List (String × (ℕ × ℕ))),
        (∀ q ∈ cd, ∃ a, lookupKey d q.1 = some a ∧ a.shape.length = 5 ∧
          q.2.1 ≤ a.shape.getD 3 0 ∧ q.2.2 ≤ a.shape.getD 4 0) →
        mkRandomCrop inner cd r = .ok (.randomCrop r cd inner))) := by
  constructor
  · intro inner r hdec
    have ha := getDataAttr_of_decorator inner hdec
    refine ⟨?_, ?_, ?_, ?_⟩
    · intro k sv rest
      have hloop : agnCheckLoop inner ((k, sv) :: rest) = .error .attributeError := by
        simp only [agnCheckLoop, ha]
        rfl
      simp only [mkAddGaussianNoise]
      rw [hloop]
      rfl
    · have hloop : flipCheckLoop inner defaultProbDict = .error .attributeError := by
        simp only [defaultProbDict, flipCheckLoop, ha]
        rfl
      simp only [mkFlip]
      rw [show (none : Option (List (String × ℚ))).getD defaultProbDict =
        defaultProbDict from rfl, hloop]
      rfl
    · intro k sv rest
      have hloop : padCheckLoop inner ((k, sv) :: rest) = .error .attributeError := by
        simp only [padCheckLoop, ha]
        rfl
      simp only [mkPad]
      rw [hloop]
      rfl
    · intro k cs rest
      have hloop : cropCheckLoop inner ((k, cs) :: rest) = .error .attributeError := by
        simp only [cropCheckLoop, ha]
        rfl
      simp only [mkRandomCrop]
      rw [hloop]
      rfl
  · intro inner d r hd
    refine ⟨?_, ?_, ?_, ?_⟩
    · intro stdD h
      simp only [mkAddGaussianNoise]
      rw [agnCheckLoop_ok inner d hd stdD h]
      rfl
    · intro pd h
      simp only [mkFlip]
      rw [show (some pd).getD defaultProbDict = pd from rfl,
        flipCheckLoop_ok inner d hd pd h]
      rfl
    · intro sd h
      simp only [mkPad]
      rw [padCheckLoop_ok inner d hd sd h]
      rfl
    · intro cd h
      simp only [mkRandomCrop]
      rw [cropCheckLoop_ok inner d hd cd h]
      rfl

/-- Witness for the amended C1 theorem: a decorator inner iterator rejects a
configured wrap, and a base inner iterator accepts one. -/
theorem c1_amended_witness :
    ((Iter.addGaussianNoise zeroStream [("default", 1)] []
        (.undivided [("default", arrRank5seven)])).isDecorator = true ∧
      mkFlip (Iter.addGaussianNoise zeroStream [("default", 1)] []
        (.undivided [("default", arrRank5seven)])) none zeroStream
        = .error .attributeError) ∧
    ((Iter.undivided [("default", arrRank5seven)]).getDataAttr
        = .ok [("default", arrRank5seven)] ∧
      mkFlip (.undivided [("default", arrRank5seven)])
          (some [("default", 1)]) zeroStream
        = .ok (.flip zeroStream [("default", 1)]
            (.undivided [("default", arrRank5seven)]))) := by
  constructor
  · exact ⟨rfl, (c1_amended_decorator_wrapping.1
      (Iter.addGaussianNoise zeroStream [("default", 1)]
        [] (.undivided [("default", arrRank5seven)])) zeroStream rfl).2.1⟩
  · refine ⟨rfl, ?_⟩
    refine ((c1_amended_decorator_wrapping.2
      (.undivided [("default", arrRank5seven)]) [("default", arrRank5seven)]
      zeroStream rfl).2.1) [("default", 1)] ?_
    intro q hq
    have : q = (("default" : String), (1 : ℚ)) := by simpa using hq
    rw [this]
    refine ⟨by norm_num, by norm_num, arrRank5seven, rfl, rfl⟩

/-- Claim C8 (confirmed): for a validated dataset with common sample extent
n, one invocation of Online yields exactly n batches, and in every yielded
batch every named array has sample extent exactly 1 while its shape is the
corresponding dataset array shape with the sample axis set to 1, preserving
the time extent and all feature extents, for both shuffle settings. -/
theorem c8_online_batches :
    ∀ (sh : Bool) (r : RNG) (n : ℕ) (d : List (String × NDArray)),
      _assert_correct_data_format d = .ok n →
      ∀ o : RunOut, (Iter.online sh r n d).run = .ok o →
        o.batches.length = n ∧
        ∀ b ∈ o.batches, ∀ p ∈ b,
          p.2.shape.getD 1 0 = 1 ∧
          ∃ q ∈ d, q.1 = p.1 ∧ p.2.shape = q.2.shape.set 1 1 := by
  intro sh r n d hval o h
  obtain ⟨hne, hrank, hext⟩ := validator_props d n hval
  have hbat : o.batches =
      ((if sh = true then r.shuffle (List.range n) else (List.range n, r)).1).map
        (fun i => d.map (fun p => (p.1, sliceCols p.2 i (i + 1)))) := by
    rw [← Except.ok.inj h]
    rfl
  constructor
  · rw [hbat, List.length_map]
    cases sh
    · simp
    · simp [shuffle_length]
  · intro b hb p hp
    rw [hbat] at hb
    obtain ⟨i, hi, rfl⟩ := List.mem_map.mp hb
    have hin : i < n := by
      cases sh
      · simp only [Bool.false_eq_true, if_false] at hi
        exact List.mem_range.mp hi
      · simp only [if_true] at hi
        exact List.mem_range.mp (mem_shuffle _ _ _ hi)
    obtain ⟨q, hq, rfl⟩ := List.mem_map.mp hp
    have hB := hext q hq
    have hlen := hrank q hq
    have hsh : (sliceCols q.2 i (i + 1)).shape = q.2.shape.set 1 1 := by
      rw [sliceCols_shape, hB]
      congr 1
      omega
    refine ⟨?_, q, hq, rfl, hsh⟩
    rw [hsh]
    exact getD_set_of_lt _ _ _ (by omega)

/-- Witness for the C8 theorem at a concrete input. -/
theorem c8_online_witness :
    ((Iter.online true zeroStream 3 [("x", arrShape3)]).run.map
      (fun (o : RunOut) => o.batches.length)) = .ok 3 := by
  cases hrun : (Iter.online true zeroStream 3 [("x", arrShape3)]).run with
  | error e => exact Except.noConfusion hrun
  | ok o =>
    have hlen := (c8_online_batches true zeroStream 3 [("x", arrShape3)] rfl o hrun).1
    show Except.ok o.batches.length = Except.ok 3
    rw [hlen]

/-- Claim C2 counterexample: totalSamples 3, batchSize 2, shuffle on, with a
stream that swaps the two blocks.  The run yields 2 batches whose sample
extents come out as 1 then 2 in yielded order, so a batch that is not the
last yielded one has extent 1, not the batch size 2 as the claim requires for
every valid configuration including shuffle. -/
theorem c2_counterexample_shuffled_short_block_first :
    (Iter.minibatches 2 true zeroStream 3 [("x", arrShape3)]).run.map
        (fun (o : RunOut) => o.batches.map (fun b => b.map (fun p => p.2.shape.getD 1 0)))
      = .ok [[1], [2]] ∧
    _assert_correct_data_format [("x", arrShape3)] = .ok 3 ∧
    0 + 1 < 2 ∧ ([[1], [2]] : List (List ℕ)).getD 0 [] ≠ [2] := by
  refine ⟨rfl, rfl, by norm_num, by simp⟩

/-- Claim C2 (corrected): for every validated dataset and batch size k of at
least 1, one invocation of Minibatches yields exactly ceil(n / k) batches for
both shuffle settings; with shuffle off, every batch before the last has
sample extent exactly k and the last has extent n mod k when non-zero, else
k.  With shuffle on, the short block may be yielded at any position. -/
theorem c2_amended_minibatch_counts :
    ∀ (k : ℕ) (r : RNG) (n : ℕ) (d : List (String × NDArray)),
      1 ≤ k → _assert_correct_data_format d = .ok n →
      (∀ o : RunOut, (Iter.minibatches k false r n d).run = .ok o →
        o.batches.length = ceilDivNat n k ∧
        (∀ i, i + 1 < ceilDivNat n k →
          ∀ p ∈ o.batches.getD i [], p.2.shape.getD 1 0 = k) ∧
        (1 ≤ ceilDivNat n k →
          ∀ p ∈ o.batches.getD (ceilDivNat n k - 1) [],
            p.2.shape.getD 1 0 = if n % k = 0 then k else n % k)) ∧
      (∀ o : RunOut, (Iter.minibatches k true r n d).run = .ok o →
        o.batches.length = ceilDivNat n k) := by
  intro k r n d hk hval
  obtain ⟨hne, hrank, hext⟩ := validator_props d n hval
  obtain ⟨hle, hzero, hlast1, hlast2⟩ := ceilDivNat_facts n k hk
  constructor
  · intro o h
    have hbat : o.batches = (List.range (ceilDivNat n k)).map
        (fun i => d.map (fun p => (p.1, sliceCols p.2 (i * k) ((i + 1) * k)))) := by
      rw [← Except.ok.inj h]
    refine ⟨?_, ?_, ?_⟩
    · rw [hbat, List.length_map, List.length_range]
    · intro i hi p hp
      rw [hbat, getD_map_range _ _ _ _ (by omega)] at hp
      obtain ⟨q, hq, rfl⟩ := List.mem_map.mp hp
      have hB := hext q hq
      have hlen := hrank q hq
      show (sliceCols q.2 (i * k) ((i + 1) * k)).shape.getD 1 0 = k
      rw [sliceCols_extent _ _ _ (by omega), hB]
      have hi1 : (i + 1) * k ≤ (ceilDivNat n k - 1) * k :=
        Nat.mul_le_mul_right k (by omega)
      have hn1 : 1 ≤ n := by
        by_contra hc
        have h0 : n = 0 := by omega
        have := hzero h0
        omega
      have hlt := hlast1 hn1
      have hsucc : (i + 1) * k = i * k + k := Nat.succ_mul i k
      omega
    · intro hnb p hp
      rw [hbat, getD_map_range _ _ _ _ (by omega)] at hp
      obtain ⟨q, hq, rfl⟩ := List.mem_map.mp hp
      have hB := hext q hq
      have hlen := hrank q hq
      show (sliceCols q.2 ((ceilDivNat n k - 1) * k)
        ((ceilDivNat n k - 1 + 1) * k)).shape.getD 1 0 = _
      rw [sliceCols_extent _ _ _ (by omega), hB]
      have hn1 : 1 ≤ n := by
        by_contra hc
        have h0 : n = 0 := by omega
        have := hzero h0
        omega
      have hlt := hlast1 hn1
      have heq := hlast2 hn1
      have hnb1 : ceilDivNat n k - 1 + 1 = ceilDivNat n k := by omega
      rw [hnb1, ← heq]
      omega
  · intro o h
    have hbat : o.batches = ((r.shuffle (List.range (ceilDivNat n k))).1).map
        (fun i => d.map (fun p => (p.1, sliceCols p.2 (i * k) ((i + 1) * k)))) := by
      rw [← Except.ok.inj h]
      rfl
    rw [hbat, List.length_map, shuffle_length, List.length_range]

/-- Witness for the amended C2 theorem at a concrete input. -/
theorem c2_amended_witness :
    ((Iter.minibatches 2 false zeroStream 3 [("x", arrShape3)]).run.map
      (fun (o : RunOut) => o.batches.length)) = .ok (ceilDivNat 3 2) := by
  cases hrun : (Iter.minibatches 2 false zeroStream 3 [("x", arrShape3)]).run with
  | error e => exact Except.noConfusion hrun
  | ok o =>
    have hlen := ((c2_amended_minibatch_counts 2 zeroStream 3 [("x", arrShape3)]
      (by norm_num) rfl).1 o hrun).1
    show Except.ok o.batches.length = Except.ok (ceilDivNat 3 2)
    rw [hlen]

/-- Claim C5 counterexample: pad size 0 is accepted at construction, and on a
(1,1,1,1,1) input of value 7 the yielded replacement array has the claimed
shape but value 0 (the pad value) everywhere: the Python assignment writes
the original into the empty slice 0 : 0, so the interior does not equal the
original.  For larger images pad size 0 raises a broadcast ValueError
instead. -/
theorem c5_counterexample_pad_size_zero :
    ((do
        let base ← mkUndivided [("img", arrRank5seven)]
        mkPad base [("img", 0)] none zeroStream).bind Iter.run).map
        (fun (o : RunOut) => o.batches.map
          (fun (b : Batch) => b.map
            (fun (p : String × NDArray) => (p.2.shape, p.2.val [0, 0, 0, 0, 0]))))
      = .ok [[([1, 1, 1, 1, 1], 0)]] ∧
    arrRank5seven.val [0, 0, 0, 0, 0] = 7 ∧
    ((0 : ℚ) ≠ 7) :=
  ⟨rfl, rfl, by norm_num⟩

/-- Claim C5 (corrected): for every configured pad size s of at least 1, the
per-name Pad transform succeeds and produces an array of shape
(T,B,C,H+2s,W+2s) whose interior offset by s equals the original array
exactly and whose border is filled with the configured value.  For s = 0 the
empty-slice assignment breaks the property, as the counterexample shows. -/
theorem c5_amended_pad (a : NDArray) (s : ℕ) (v : ℚ) (t b c h w : ℕ)
    (hs : a.shape = [t, b, c, h, w]) (h1 : 1 ≤ s) :
    ∃ p : NDArray, padArray a s v = .ok p ∧
      p.shape = [t, b, c, h + 2 * s, w + 2 * s] ∧
      (∀ i0 i1 i2 i3 i4 : ℕ, i3 < h → i4 < w →
        p.val [i0, i1, i2, i3 + s, i4 + s] = a.val [i0, i1, i2, i3, i4]) ∧
      (∀ i0 i1 i2 i3 i4 : ℕ, i3 < s ∨ h + s ≤ i3 ∨ i4 < s ∨ w + s ≤ i4 →
        p.val [i0, i1, i2, i3, i4] = v) := by
  have hg0 : a.shape.getD 0 0 = t := by rw [hs]; rfl
  have hg1 : a.shape.getD 1 0 = b := by rw [hs]; rfl
  have hg2 : a.shape.getD 2 0 = c := by rw [hs]; rfl
  have hg3 : a.shape.getD 3 0 = h := by rw [hs]; rfl
  have hg4 : a.shape.getD 4 0 = w := by rw [hs]; rfl
  have hifc : ¬ (s = 0 ∧ (2 ≤ a.shape.getD 3 0 ∨ 2 ≤ a.shape.getD 4 0)) := by
    intro hc
    omega
  have hres : padArray a s v = .ok ⟨[a.shape.getD 0 0, a.shape.getD 1 0,
      a.shape.getD 2 0, a.shape.getD 3 0 + 2 * s, a.shape.getD 4 0 + 2 * s],
      fun ix =>
        if 1 ≤ s ∧ s ≤ ix.getD 3 0 ∧ ix.getD 3 0 < a.shape.getD 3 0 + s ∧
           s ≤ ix.getD 4 0 ∧ ix.getD 4 0 < a.shape.getD 4 0 + s
        then a.val [ix.getD 0 0, ix.getD 1 0, ix.getD 2 0,
          ix.getD 3 0 - s, ix.getD 4 0 - s]
        else v⟩ := by
    simp only [padArray]
    rw [if_neg hifc]
  refine ⟨_, hres, ?_, ?_, ?_⟩
  · show [a.shape.getD 0 0, a.shape.getD 1 0, a.shape.getD 2 0,
      a.shape.getD 3 0 + 2 * s, a.shape.getD 4 0 + 2 * s]
      = [t, b, c, h + 2 * s, w + 2 * s]
    rw [hg0, hg1, hg2, hg3, hg4]
  · intro i0 i1 i2 i3 i4 h3 h4
    show (if 1 ≤ s ∧ s ≤ i3 + s ∧ i3 + s < a.shape.getD 3 0 + s ∧
        s ≤ i4 + s ∧ i4 + s < a.shape.getD 4 0 + s
      then a.val [i0, i1, i2, i3 + s - s, i4 + s - s]
      else v) = a.val [i0, i1, i2, i3, i4]
    rw [hg3, hg4]
    rw [if_pos (by omega)]
    have e3 : i3 + s - s = i3 := by omega
    have e4 : i4 + s - s = i4 := by omega
    rw [e3, e4]
  · intro i0 i1 i2 i3 i4 hor
    show (if 1 ≤ s ∧ s ≤ i3 ∧ i3 < a.shape.getD 3 0 + s ∧
        s ≤ i4 ∧ i4 < a.shape.getD 4 0 + s
      then a.val [i0, i1, i2, i3 - s, i4 - s]
      else v) = v
    rw [hg3, hg4]
    rw [if_neg (by omega)]

/-- Witness for the amended C5 theorem at a concrete input. -/
theorem c5_amended_witness :
    arrRank5seven.shape = [1, 1, 1, 1, 1] ∧ 1 ≤ 1 ∧
    (∃ p : NDArray, padArray arrRank5seven 1 0 = .ok p ∧
      p.shape = [1, 1, 1, 1 + 2 * 1, 1 + 2 * 1] ∧
      (∀ i0 i1 i2 i3 i4 : ℕ, i3 < 1 → i4 < 1 →
        p.val [i0, i1, i2, i3 + 1, i4 + 1] = arrRank5seven.val [i0, i1, i2, i3, i4]) ∧
      (∀ i0 i1 i2 i3 i4 : ℕ, i3 < 1 ∨ 1 + 1 ≤ i3 ∨ i4 < 1 ∨ 1 + 1 ≤ i4 →
        p.val [i0, i1, i2, i3, i4] = 0)) :=
  ⟨rfl, by decide, c5_amended_pad arrRank5seven 1 0 1 1 1 1 1 rfl (by decide)⟩

/-- Claim C6 (confirmed, crop kernel modelled from the spec): through
RandomCrop, every configured name is replaced by the crop transform applied
to its incoming array with fresh per-sample offset draws; and the transform,
on an array of shape (t,b,c,h,w) with crop shape (ch,cw) within bounds,
produces shape (t,b,c,ch,cw), draws every row offset at most h - ch and
every column offset at most w - cw, one offset pair per sample index shared
across time steps and channels, and every read stays within the input
bounds. -/
theorem c6_randomcrop_window :
    (∀ (sd : List (String × (ℕ × ℕ))) (name : String) (ch cw : ℕ),
      (keysOf sd).Nodup → lookupKey sd name = some (ch, cw) →
      ∀ (r : RNG) (b : Batch) (a : NDArray), lookupKey b name = some a →
        ∃ r2 : RNG, lookupKey ((cropBatch r sd b).1) name =
          some ((cropOne r2 ch cw a).1)) ∧
    (∀ (r : RNG) (ch cw t b c h w : ℕ) (a : NDArray),
      a.shape = [t, b, c, h, w] → ch ≤ h → cw ≤ w →
      (cropOne r ch cw a).1.shape = [t, b, c, ch, cw] ∧
      (∀ i : ℕ, ((randIntList r (h - ch) b).1).getD i 0 ≤ h - ch) ∧
      (∀ i : ℕ,
        ((randIntList (randIntList r (h - ch) b).2 (w - cw) b).1).getD i 0 ≤ w - cw) ∧
      (∀ i0 i1 i2 i3 i4 : ℕ, i3 < ch → i4 < cw →
        (cropOne r ch cw a).1.val [i0, i1, i2, i3, i4] =
          a.val [i0, i1, i2,
            ((randIntList r (h - ch) b).1).getD i1 0 + i3,
            ((randIntList (randIntList r (h - ch) b).2 (w - cw) b).1).getD i1 0 + i4] ∧
        ((randIntList r (h - ch) b).1).getD i1 0 + i3 < h ∧
        ((randIntList (randIntList r (h - ch) b).2 (w - cw) b).1).getD i1 0 + i4 < w)) := by
  constructor
  · intro sd name ch cw hnod hlook r b a hb
    exact cropBatchAux_lookup sd name ch cw hnod hlook r b a hb
  · intro r ch cw t b c h w a hs hch hcw
    have hg1 : a.shape.getD 1 0 = b := by rw [hs]; rfl
    have hg3 : a.shape.getD 3 0 = h := by rw [hs]; rfl
    have hg4 : a.shape.getD 4 0 = w := by rw [hs]; rfl
    refine ⟨?_, ?_, ?_, ?_⟩
    · show (cropOne r ch cw a).1.shape = _
      simp only [cropOne, cropArray, hg1, hg3, hg4, hs]
      rfl
    · intro i
      exact randIntList_getD_le _ _ _ _
    · intro i
      exact randIntList_getD_le _ _ _ _
    · intro i0 i1 i2 i3 i4 h3 h4
      have hrle : ((randIntList r (h - ch) b).1).getD i1 0 ≤ h - ch :=
        randIntList_getD_le _ _ _ _
      have hcle :
          ((randIntList (randIntList r (h - ch) b).2 (w - cw) b).1).getD i1 0 ≤ w - cw :=
        randIntList_getD_le _ _ _ _
      refine ⟨?_, by omega, by omega⟩
      show (cropOne r ch cw a).1.val [i0, i1, i2, i3, i4] = _
      simp only [cropOne, cropArray, hg1, hg3, hg4]
      rfl

/-- Witness for the C6 theorem at a concrete input. -/
theorem c6_randomcrop_witness :
    (keysOf [(("img" : String), ((1 : ℕ), (1 : ℕ)))]).Nodup ∧
    lookupKey [(("img" : String), ((1 : ℕ), (1 : ℕ)))] ("img") = some (1, 1) ∧
    lookupKey [(("img" : String), arrCrop)] ("img") = some arrCrop ∧
    (∃ r2 : RNG,
      lookupKey ((cropBatch zeroStream [("img", (1, 1))] [("img", arrCrop)]).1) ("img")
        = some ((cropOne r2 1 1 arrCrop).1)) :=
  ⟨by simp [keysOf], rfl, rfl,
    c6_randomcrop_window.1 [("img", (1, 1))] ("img") 1 1 (by simp [keysOf]) rfl
      zeroStream [("img", arrCrop)] arrCrop rfl⟩

/-- Claim C7 (confirmed): through Flip, at every position of the yielded
stream, a name configured with probability 1 has its array reversed along
the last axis, a name configured with probability 0 is unchanged, and a name
absent from the probability configuration is exactly what the inner iterator
produced. -/
theorem c7_flip_probabilities :
    ∀ (pd : List (String × ℚ)) (name : String), (keysOf pd).Nodup →
    ∀ (r : RNG) (bs : List Batch) (i : ℕ),
      (lookupKey pd name = some 1 →
        lookupKey (((flipAll r pd bs).1).getD i []) name =
          (lookupKey (bs.getD i []) name).map reverseLast) ∧
      (lookupKey pd name = some 0 →
        lookupKey (((flipAll r pd bs).1).getD i []) name =
          lookupKey (bs.getD i []) name) ∧
      (lookupKey pd name = none →
        lookupKey (((flipAll r pd bs).1).getD i []) name =
          lookupKey (bs.getD i []) name) := by
  intro pd name hnod r bs
  induction bs generalizing r with
  | nil =>
    intro i
    refine ⟨fun _ => ?_, fun _ => ?_, fun _ => ?_⟩ <;> simp [flipAll, lookupKey]
  | cons bhead brest ih =>
    intro i
    cases i with
    | zero =>
      refine ⟨fun hl => ?_, fun hl => ?_, fun hl => ?_⟩
      · show lookupKey ((flipBatchAux r bhead pd).1) name =
          (lookupKey bhead name).map reverseLast
        exact flipBatchAux_prob_one pd name hnod hl r bhead
      · show lookupKey ((flipBatchAux r bhead pd).1) name = lookupKey bhead name
        exact flipBatchAux_prob_zero pd name hnod hl r bhead
      · show lookupKey ((flipBatchAux r bhead pd).1) name = lookupKey bhead name
        exact flipBatchAux_not_key pd name hl r bhead
    | succ j =>
      exact ih ((flipBatch r pd bhead).2) j

/-- Witness for the C7 theorem at a concrete input. -/
theorem c7_flip_witness :
    (keysOf [(("img" : String), (1 : ℚ))]).Nodup ∧
    lookupKey [(("img" : String), (1 : ℚ))] ("img") = some 1 ∧
    lookupKey (((flipAll zeroStream [("img", 1)] [[("img", arrCrop)]]).1).getD 0 []) ("img")
      = (lookupKey ([[(("img" : String), arrCrop)]].getD 0 []) ("img")).map reverseLast :=
  ⟨by simp [keysOf], rfl,
    (c7_flip_probabilities [("img", 1)] ("img") (by simp [keysOf])
      zeroStream [[("img", arrCrop)]] 0).1 rfl⟩

/-- Claim C9 counterexample: AddGaussianNoise over Undivided is a randomized
iterator, and even with the RNG reset to the same seeded state before each
invocation, the two yielded sequences differ: the first batch holds
0 + 1 * (1/2) + 0 and the second holds that value plus another noise draw,
because the first run rebinds the entry of the base dataset dict. -/
theorem c9_counterexample_reset_not_reproducible :
    (runTwiceReset (.addGaussianNoise halfStream [("a", 1)] []
        (.undivided [("a", arrRank3zero)])) halfStream).map
        (fun (p : List Batch × List Batch) =>
          (p.1.map (fun b => b.map (fun q => q.2.val [0, 0, 0])),
           p.2.map (fun b => b.map (fun q => q.2.val [0, 0, 0]))))
      = .ok ([[0 + 1 * (1 / 2) + 0]],
             [[(0 + 1 * (1 / 2) + 0) + 1 * (1 / 2) + 0]]) ∧
    ¬ ([[(0 : ℚ) + 1 * (1 / 2) + 0]] =
       [[((0 : ℚ) + 1 * (1 / 2) + 0) + 1 * (1 / 2) + 0]]) := by
  refine ⟨rfl, ?_⟩
  intro hc
  simp at hc

/-- Claim C9 (corrected): re-invoking a bare non-shuffled base iterator twice
yields identical sequences, and re-invoking any pipeline free of the
Undivided aliasing hazard with every owned RNG reset to the same state
before each invocation yields identical sequences.  Decorator chains over
Undivided are excluded: there the first run rebinds entries of the base
dataset dict, as the counterexample shows. -/
theorem c9_amended_reproducibility :
    (∀ (d : List (String × NDArray)) (p : List Batch × List Batch),
      runTwice (.undivided d) = .ok p → p.1 = p.2) ∧
    (∀ (r : RNG) (n : ℕ) (d : List (String × NDArray)) (p : List Batch × List Batch),
      runTwice (.online false r n d) = .ok p → p.1 = p.2) ∧
    (∀ (k : ℕ) (r : RNG) (n : ℕ) (d : List (String × NDArray))
        (p : List Batch × List Batch),
      runTwice (.minibatches k false r n d) = .ok p → p.1 = p.2) ∧
    (∀ (i : Iter) (r : RNG) (p : List Batch × List Batch),
      i.okRoot = true → runTwiceReset i r = .ok p → p.1 = p.2) := by
  refine ⟨?_, ?_, ?_, ?_⟩
  · intro d p h
    have h2 := Except.ok.inj h
    rw [← h2]
  · intro r n d p h
    have h2 := Except.ok.inj h
    rw [← h2]
  · intro k r n d p h
    have h2 := Except.ok.inj h
    rw [← h2]
  · intro i r p hok h
    have hokj : (i.resetRNG r).okRoot = true := by
      rw [okRoot_resetRNG]
      exact hok
    cases h1 : (i.resetRNG r).run with
    | error e =>
      unfold runTwiceReset at h
      rw [h1] at h
      exact Except.noConfusion h
    | ok o1 =>
      unfold runTwiceReset at h
      rw [h1] at h
      have h3 : Except.bind ((o1.post.resetRNG r).run)
          (fun o2 => Except.ok (o1.batches, o2.batches)) = Except.ok p := h
      have hpost : o1.post.resetRNG r = (i.resetRNG r).resetRNG r :=
        run_post_resetRNG (i.resetRNG r) hokj o1 h1 r
      rw [resetRNG_idem] at hpost
      rw [hpost, h1] at h3
      have h4 := Except.ok.inj h3
      rw [← h4]

/-- Witness for the amended C9 theorem at a concrete input. -/
theorem c9_amended_witness :
    (Iter.online true zeroStream 3 [("x", arrShape3)]).okRoot = true ∧
    (runTwiceReset (Iter.online true zeroStream 3 [("x", arrShape3)]) zeroStream).map
        Prod.fst
      = (runTwiceReset (Iter.online true zeroStream 3 [("x", arrShape3)]) zeroStream).map
        Prod.snd := by
  refine ⟨rfl, ?_⟩
  cases h : runTwiceReset (Iter.online true zeroStream 3 [("x", arrShape3)]) zeroStream with
  | error e => rfl
  | ok p =>
    have := c9_amended_reproducibility.2.2.2
      (Iter.online true zeroStream 3 [("x", arrShape3)]) zeroStream p rfl h
    show Except.ok p.1 = Except.ok p.2
    rw [this]

end Brainstorm
